import Mathlib

/-!
Verification of the node-pool repository (a generic resource pool) against its
natural-language specification.  The TypeScript sources are shallowly embedded:
classes become structures, in-place mutation becomes explicit state passing,
JavaScript numbers become Int (or rational pairs where fractional values
matter), promises and timers become explicit fields and oracle parameters for
asynchronous completion order.
-/

deriving instance DecidableEq for Except

namespace NodePool

/-! ## PooledResourceStateEnum and PooledResource (src/lib/PooledResource.ts)

The wrapper around a live resource.  `obj` is the caller-visible handle,
modelled as a Nat identifier.  `Date.now()` calls become an explicit `now`
argument. -/

inductive PRState where
  | IDLE
  | ALLOCATED
  | VALIDATION
  | RETURNING
  | INVALID
deriving DecidableEq, Repr

structure PooledResource where
  creationTime : Nat
  lastReturnTime : Option Nat
  lastBorrowTime : Option Nat
  lastIdleTime : Option Nat
  obj : Nat
  state : PRState
deriving DecidableEq, Repr

/-- Constructor of PooledResource: lastIdleTime initialized to creation time,
state IDLE. -/
def mkPooledResource (objId : Nat) (now : Nat) : PooledResource :=
  { creationTime := now
    lastReturnTime := none
    lastBorrowTime := none
    lastIdleTime := some now
    obj := objId
    state := PRState.IDLE }

def PooledResource.allocate (r : PooledResource) (now : Nat) : PooledResource :=
  { r with lastBorrowTime := some now, lastIdleTime := none, state := PRState.ALLOCATED }

def PooledResource.deallocate (r : PooledResource) (now : Nat) : PooledResource :=
  { r with lastReturnTime := some now, lastIdleTime := some now, state := PRState.IDLE }

def PooledResource.invalidate (r : PooledResource) : PooledResource :=
  { r with state := PRState.INVALID }

def PooledResource.test (r : PooledResource) : PooledResource :=
  { r with state := PRState.VALIDATION }

def PooledResource.idle (r : PooledResource) (now : Nat) : PooledResource :=
  { r with lastIdleTime := some now, state := PRState.IDLE }

def PooledResource.returning (r : PooledResource) : PooledResource :=
  { r with state := PRState.RETURNING }

/-! Lifecycle operations as data, so that claims about every operation
sequence can be stated.  Each entry pairs the operation with the clock value
at which it runs. -/

inductive PROp where
  | allocate
  | deallocate
  | invalidate
  | test
  | idle
  | returning
deriving DecidableEq, Repr

def PooledResource.applyOp (r : PooledResource) : PROp × Nat → PooledResource
  | (PROp.allocate, now) => r.allocate now
  | (PROp.deallocate, now) => r.deallocate now
  | (PROp.invalidate, _) => r.invalidate
  | (PROp.test, _) => r.test
  | (PROp.idle, now) => r.idle now
  | (PROp.returning, _) => r.returning

def PooledResource.applyOps (r : PooledResource) (ops : List (PROp × Nat)) : PooledResource :=
  ops.foldl PooledResource.applyOp r

/-- The property claimed for every reachable PooledResource:
lastIdleTime is non-null exactly when the state is IDLE. -/
def lastIdleIffIdle (r : PooledResource) : Prop :=
  r.lastIdleTime ≠ none ↔ r.state = PRState.IDLE

instance (r : PooledResource) : Decidable (lastIdleIffIdle r) := by
  unfold lastIdleIffIdle; infer_instance

/-! ## Deferred and ResourceRequest (src Deferred.ts and ResourceRequest.ts)

A Deferred is a one-shot completion handle with states PENDING, FULFILLED,
REJECTED.  A ResourceRequest adds a creation timestamp and a cancellable
timer.  The timer reference is modelled by the effective delay it was armed
with (`none` when no timer is armed). -/

inductive DState where
  | PENDING
  | FULFILLED
  | REJECTED
deriving DecidableEq, Repr

/-- A JavaScript number as used for timeout delays, modelled as an exact
rational `num / den` (no NaN or infinities; `den` must be nonzero).  This
keeps fractional delays representable without floating point. -/
structure JSNumber where
  num : Int
  den : Nat
deriving DecidableEq, Repr

/-- JavaScript Math.floor on the rational `num / den` (floor division). -/
def jsMathFloor (x : JSNumber) : Int :=
  Int.fdiv x.num x.den

/-- The number is an exact integer. -/
def JSNumber.isIntegerValued (x : JSNumber) : Prop :=
  (x.den : Int) ∣ x.num

instance (x : JSNumber) : Decidable x.isIntegerValued := by
  unfold JSNumber.isIntegerValued; infer_instance

/-- The number is negative. -/
def JSNumber.isNeg (x : JSNumber) : Prop :=
  x.num < 0

structure ResourceRequest where
  dstate : DState
  creationTimestamp : Int
  timerRef : Option Int
deriving DecidableEq, Repr

/-- ResourceRequest.setTimeout.  A no-op (returns the request unchanged) when
the request is not pending; throws (Except.error) when `Math.floor(delay)` is
not positive; otherwise replaces any prior timer with one armed at effective
delay `max(ttl - age, 0)` where `ttl = Math.floor(delay)` and `age` is the
elapsed time since creation. -/
def ResourceRequest.setTimeout (r : ResourceRequest) (delay : JSNumber) (now : Int) :
    Except Unit ResourceRequest :=
  if r.dstate ≠ DState.PENDING then Except.ok r
  else
    let ttl := jsMathFloor delay
    if ttl ≤ 0 then Except.error ()
    else
      let age := now - r.creationTimestamp
      Except.ok { r with timerRef := some (max (ttl - age) 0) }

/-- The error condition claimed by the spec for setTimeout on a pending
request: the delay is negative or not an integer. -/
def setTimeoutClaimedError (delay : JSNumber) : Prop :=
  delay.isNeg ∨ ¬ delay.isIntegerValued

/-! ## List helpers shared by the container models -/

/-- Update the element at one position of a list, leaving other positions
unchanged (out-of-range positions leave the list unchanged). -/
def listModify {α : Type} : List α → Nat → (α → α) → List α
  | [], _, _ => []
  | b :: bs, 0, f => f b :: bs
  | b :: bs, n + 1, f => b :: listModify bs n f

/-- Update every entry of an association list whose key matches, applying `f`
to its value.  With unique keys this is exactly JS Map.set of a mutated
value. -/
def storeSet {β : Type} : List (Nat × β) → Nat → (β → β) → List (Nat × β)
  | [], _, _ => []
  | (j, r) :: rest, i, f =>
    if j = i then (j, f r) :: storeSet rest i f else (j, r) :: storeSet rest i f

/-- Scan priority slots from index 0 upward; shift the head of the first
non-empty slot.  This is PriorityQueue.dequeue over the slot array. -/
def dequeueSlots {α : Type} : List (List α) → Option α × List (List α)
  | [] => (none, [])
  | [] :: rest =>
    let r := dequeueSlots rest
    (r.1, [] :: r.2)
  | (x :: xs) :: rest => (some x, xs :: rest)

/-! ## PriorityQueue (src/lib/PriorityQueue.ts)

A fixed array of FIFO slots.  The constructor takes a requested size, applies
the 32-bit `| 0` coercion and clamps to at least 1; enqueue sends the
priority through the JS coercion `(priority && +priority | 0) || 0` (absent
or zero priority becomes 0, any other integer takes the ToInt32 wrap of
`| 0`) and clamps out-of-range values to the last slot. -/

/-- The JavaScript ToInt32 coercion performed by the bitwise `| 0` operator
on an integral value: wrap modulo 2^32 into the interval [-2^31, 2^31). -/
def toInt32 (x : Int) : Int :=
  (x + 2147483648) % 4294967296 - 2147483648

structure PriorityQueue (α : Type) where
  size : Nat
  slots : List (List α)
deriving DecidableEq, Repr

/-- PriorityQueue constructor: `_size = Math.max(size | 0, 1)` and one empty
FIFO queue per slot. -/
def PriorityQueue.make (α : Type) (size : Int) : PriorityQueue α :=
  { size := (max (toInt32 size) 1).toNat
    slots := List.replicate (max (toInt32 size) 1).toNat [] }

/-- PriorityQueue.enqueue.  `none` stands for an absent priority argument;
`(priority && +priority | 0) || 0` resolves it to 0 when absent or zero and
to the 32-bit wrap `toInt32 p` otherwise (which coincides with `toInt32 p`
in all cases, since `toInt32 0 = 0`). -/
def PriorityQueue.enqueue {α : Type} (q : PriorityQueue α) (obj : α)
    (priority : Option Int) : PriorityQueue α :=
  let resolved : Int := match priority with
    | none => 0
    | some p => toInt32 p
  let idx : Nat :=
    if resolved < 0 ∨ (q.size : Int) ≤ resolved then q.size - 1 else resolved.toNat
  { q with slots := listModify q.slots idx (fun slot => slot ++ [obj]) }

/-- The slot index the spec claims enqueue uses: the priority itself when it
lies in `[0, priorityRange)`, else `priorityRange - 1`. -/
def claimedSlotIndex (size : Nat) (p : Int) : Nat :=
  if 0 ≤ p ∧ p < (size : Int) then p.toNat else size - 1

/-! ## Pool engine, counting model (src/lib/Pool.ts)

For the capacity invariants the pool state is abstracted to the sizes of its
containers.  Asynchronous factory operations are modelled as explicit
settlement transitions; the pending-or-not status of a dequeued request
during dispatch comes from an oracle list of booleans (one per dispatched
resource), since request timeouts fire independently. -/

structure PoolConfig where
  max : Int
  min : Int
  maxWaitingClients : Option Nat
  autostart : Bool
  testOnBorrow : Bool
  evictionRunIntervalMillis : Int
deriving DecidableEq, Repr

/-- PoolOptions resolution of max: `Math.max(opts.max, 1)`, default 1. -/
def resolveMax (optsMax : Option Int) : Int :=
  match optsMax with
  | some m => max m 1
  | none => 1

/-- PoolOptions resolution of min: `Math.min(Math.max(opts.min, 0), max)`,
default 0 (the extra `min > max` re-clamp in the source is redundant). -/
def resolveMin (optsMin : Option Int) (resolvedMax : Int) : Int :=
  match optsMin with
  | some m => min (max m 0) resolvedMax
  | none => 0

structure PState where
  allObjects : Nat
  creating : Nat
  availableLen : Nat
  testOnBorrowLen : Nat
  waitersLen : Nat
  loansLen : Nat
  started : Bool
  draining : Bool
  scheduledEviction : Bool
deriving DecidableEq, Repr

/-- `Pool._count`: `_allObjects.size + _factoryCreateOperations.size`. -/
def PState.count (s : PState) : Nat :=
  s.allObjects + s.creating

/-- `Pool.spareResourceCapacity`: `max - (_allObjects.size + _factoryCreateOperations.size)`. -/
def spareResourceCapacity (cfg : PoolConfig) (s : PState) : Int :=
  cfg.max - (s.allObjects + s.creating : Nat)

/-- `Pool._potentiallyAllocableResourceCount`. -/
def potentiallyAllocable (s : PState) : Nat :=
  s.availableLen + s.testOnBorrowLen + s.creating

/-- The capacity invariant claimed between operations. -/
def poolInv (cfg : PoolConfig) (s : PState) : Prop :=
  (s.allObjects + s.creating : Int) ≤ cfg.max

instance (cfg : PoolConfig) (s : PState) : Decidable (poolInv cfg s) := by
  unfold poolInv; infer_instance

/-- `Pool._createResource` start: one more tracked create operation. -/
def createResourceStart (s : PState) : PState :=
  { s with creating := s.creating + 1 }

/-- `Pool._ensureMinimum`: a no-op while draining or not started, otherwise
starts `min - count` creations (none when the shortfall is not positive). -/
def ensureMinimum (cfg : PoolConfig) (s : PState) : PState :=
  if s.draining = true ∨ s.started = false then s
  else { s with creating := s.creating + (cfg.min - (s.count : Int)).toNat }

/-- Number of creations `Pool._dispense` starts:
`min(spareResourceCapacity, numWaitingClients - potentiallyAllocable)`,
with a non-positive value running the loop zero times. -/
def dispenseCreateCount (cfg : PoolConfig) (s : PState) : Nat :=
  (min (spareResourceCapacity cfg s) ((s.waitersLen : Int) - (potentiallyAllocable s : Nat))).toNat

/-- `Pool._dispatchPooledResourceToNextWaitingClient` at the counting level:
the pooled resource in hand is loaned to the dequeued waiter when that waiter
is still pending, and returned to the available cache otherwise (also when
the queue is empty). -/
def dispatchPooledOne (s : PState) (pending : Bool) : PState :=
  if s.waitersLen = 0 then { s with availableLen := s.availableLen + 1 }
  else if pending then
    { s with waitersLen := s.waitersLen - 1, loansLen := s.loansLen + 1 }
  else
    { s with waitersLen := s.waitersLen - 1, availableLen := s.availableLen + 1 }

/-- `Pool._dispatchResource`: shift one resource from the available cache and
dispatch it. -/
def dispatchResource (s : PState) (pending : Bool) : PState :=
  dispatchPooledOne { s with availableLen := s.availableLen - 1 } pending

/-- The dispatch loop of `Pool._dispense` (the branch without testOnBorrow),
consuming one oracle entry per iteration. -/
def dispatchLoop : Nat → List Bool → PState → PState
  | 0, _, s => s
  | n + 1, oracle, s => dispatchLoop n oracle.tail (dispatchResource s (oracle.headD true))

/-- The testOnBorrow branch of `Pool._dispense`: move `n` resources from the
available cache into the testOnBorrow set (their validations settle later). -/
def testOnBorrowMoves (n : Nat) (s : PState) : PState :=
  { s with availableLen := s.availableLen - n, testOnBorrowLen := s.testOnBorrowLen + n }

/-- `Pool._dispense`. -/
def dispense (cfg : PoolConfig) (oracle : List Bool) (s : PState) : PState :=
  if s.waitersLen < 1 then s
  else
    let w := s.waitersLen
    let s1 := { s with creating := s.creating + dispenseCreateCount cfg s }
    if cfg.testOnBorrow then
      let n := (min (s1.availableLen : Int) ((w : Int) - (s1.testOnBorrowLen : Nat))).toNat
      testOnBorrowMoves n s1
    else
      dispatchLoop (min s1.availableLen w) oracle s1

/-- `Pool._scheduleEvictorRun`. -/
def scheduleEvictorRun (cfg : PoolConfig) (s : PState) : PState :=
  if 0 < cfg.evictionRunIntervalMillis ∧ s.started = true then
    { s with scheduledEviction := true }
  else s

/-- `Pool.start`. -/
def start (cfg : PoolConfig) (s : PState) : PState :=
  if s.draining = true ∨ s.started = true then s
  else ensureMinimum cfg (scheduleEvictorRun cfg { s with started := true })

/-- The implicit start at the top of `Pool.acquire` when the pool has not
been started and autostart is off. -/
def autoStart (cfg : PoolConfig) (s : PState) : PState :=
  if s.started = false ∧ cfg.autostart = false then start cfg s else s

inductive AcquireOutcome where
  | drainingReject
  | queueFull
  | enqueued
deriving DecidableEq, Repr

/-- The queue-full guard of `Pool.acquire` on the configured cap. -/
def waitingClientsCapped (cfg : PoolConfig) (s : PState) : Prop :=
  match cfg.maxWaitingClients with
  | some m => m ≤ s.waitersLen
  | none => False

instance (cfg : PoolConfig) (s : PState) : Decidable (waitingClientsCapped cfg s) := by
  unfold waitingClientsCapped
  cases cfg.maxWaitingClients <;> infer_instance

/-- The body of `Pool.acquire` after the implicit start. -/
def acquireChecks (cfg : PoolConfig) (oracle : List Bool) (s : PState) :
    AcquireOutcome × PState :=
  if s.draining = true then (AcquireOutcome.drainingReject, s)
  else if spareResourceCapacity cfg s < 1 ∧ s.availableLen < 1 ∧ waitingClientsCapped cfg s then
    (AcquireOutcome.queueFull, s)
  else
    (AcquireOutcome.enqueued, dispense cfg oracle { s with waitersLen := s.waitersLen + 1 })

/-- `Pool.acquire` at the counting level. -/
def acquire (cfg : PoolConfig) (oracle : List Bool) (s : PState) :
    AcquireOutcome × PState :=
  acquireChecks cfg oracle (autoStart cfg s)

/-- `Pool._destroy` at the counting level: the resource leaves allObjects and
ensureMinimum runs (the factory destroy settles independently). -/
def destroyPooled (cfg : PoolConfig) (s : PState) : PState :=
  ensureMinimum cfg { s with allObjects := s.allObjects - 1 }

/-- The counting-level transition relation between pool states: every public
operation together with the settlement of every asynchronous factory
operation. -/
inductive PoolStep (cfg : PoolConfig) : PState → PState → Prop
  | startCall (s : PState) : PoolStep cfg s (start cfg s)
  | acquireCall (s : PState) (oracle : List Bool) :
      PoolStep cfg s (acquire cfg oracle s).2
  | createSettleOk (s : PState) (oracle : List Bool) (h : 0 < s.creating) :
      PoolStep cfg s (dispense cfg oracle
        { s with creating := s.creating - 1, allObjects := s.allObjects + 1,
                 availableLen := s.availableLen + 1 })
  | createSettleFail (s : PState) (oracle : List Bool) (h : 0 < s.creating) :
      PoolStep cfg s (dispense cfg oracle { s with creating := s.creating - 1 })
  | testOnBorrowSettleValid (s : PState) (pending : Bool) (h : 0 < s.testOnBorrowLen) :
      PoolStep cfg s (dispatchPooledOne { s with testOnBorrowLen := s.testOnBorrowLen - 1 } pending)
  | testOnBorrowSettleInvalid (s : PState) (oracle : List Bool) (h : 0 < s.testOnBorrowLen) :
      PoolStep cfg s (dispense cfg oracle
        (destroyPooled cfg { s with testOnBorrowLen := s.testOnBorrowLen - 1 }))
  | releaseReturn (s : PState) (oracle : List Bool) (h : 0 < s.loansLen) :
      PoolStep cfg s (dispense cfg oracle
        { s with loansLen := s.loansLen - 1, availableLen := s.availableLen + 1 })
  | releaseTestInvalid (s : PState) (oracle : List Bool) (h : 0 < s.loansLen) :
      PoolStep cfg s (dispense cfg oracle
        (destroyPooled cfg { s with loansLen := s.loansLen - 1 }))
  | destroyCall (s : PState) (oracle : List Bool) (h : 0 < s.loansLen) :
      PoolStep cfg s (dispense cfg oracle
        (destroyPooled cfg { s with loansLen := s.loansLen - 1 }))
  | evictOne (s : PState) (h : 0 < s.availableLen) :
      PoolStep cfg s (destroyPooled cfg { s with availableLen := s.availableLen - 1 })
  | timeoutRemoveWaiter (s : PState) (h : 0 < s.waitersLen) :
      PoolStep cfg s { s with waitersLen := s.waitersLen - 1 }
  | drainCall (s : PState) :
      PoolStep cfg s { s with draining := true, scheduledEviction := false }
  | clearCall (s : PState) :
      PoolStep cfg s (ensureMinimum cfg { s with availableLen := 0, allObjects := 0 })

/-- Any number of counting-level transitions. -/
def PoolSteps (cfg : PoolConfig) : PState → PState → Prop :=
  Relation.ReflTransGen (PoolStep cfg)

/-- The freshly constructed pool before any operation (the constructor with
`autostart` true additionally performs a `start` step). -/
def initialPState : PState :=
  { allObjects := 0, creating := 0, availableLen := 0, testOnBorrowLen := 0,
    waitersLen := 0, loansLen := 0, started := false, draining := false,
    scheduledEviction := false }

/-! ## Pool engine, container model (src/lib/Pool.ts)

For claims about which resource goes where, the pool is modelled with its
containers explicit.  JS object references are modelled by the `obj`
identifier: `resources` is the heap (current wrapper value per identifier),
and the sets, deque and map of the source hold identifiers.  `destroyed`
records the factory.destroy calls issued, `resolved` the (request, handle)
resolutions, `dispenseRan` whether `_dispense` was triggered. -/

structure RequestL where
  rid : Nat
  dstate : DState
deriving DecidableEq, Repr

structure PoolL where
  resources : List (Nat × PooledResource)
  loans : List Nat
  available : List Nat
  allObjects : List Nat
  queue : List (List RequestL)
  destroyed : List Nat
  resolved : List (Nat × Nat)
  dispenseRan : Bool
deriving DecidableEq, Repr

def PoolL.getRes (s : PoolL) (i : Nat) : Option PooledResource :=
  s.resources.lookup i

def PoolL.updateRes (s : PoolL) (i : Nat) (f : PooledResource → PooledResource) : PoolL :=
  { s with resources := storeSet s.resources i f }

/-- `Pool._addPooledResourceToAvailableObjects`: set the resource idle, then
push at the tail when fifo is configured, else unshift at the head. -/
def addToAvailable (fifo : Bool) (s : PoolL) (i : Nat) (now : Nat) : PoolL :=
  let s1 := s.updateRes i (fun r => r.idle now)
  { s1 with available := if fifo then s1.available ++ [i] else i :: s1.available }

/-- `Pool._destroy` on the containers (its trailing `_ensureMinimum` only
creates resources and is covered by the counting model): invalidate the
wrapper, drop it from allObjects, issue factory.destroy. -/
def destroyRes (s : PoolL) (i : Nat) : PoolL :=
  let s1 := s.updateRes i PooledResource.invalidate
  { s1 with allObjects := s1.allObjects.erase i, destroyed := s1.destroyed ++ [i] }

/-- `Pool._dispatchPooledResourceToNextWaitingClient`.  Dequeues from the
priority queue; when no request comes back, or the request has already left
the PENDING state, the pooled resource is added back to the available cache
and dispatch reports false.  Otherwise a loan is recorded under the resource
handle, the wrapper is allocated and the request resolved with the handle. -/
def dispatchToNextWaitingClient (fifo : Bool) (s : PoolL) (i : Nat) (now : Nat) :
    PoolL × Bool :=
  let d := dequeueSlots s.queue
  let s0 := { s with queue := d.2 }
  match d.1 with
  | none => (addToAvailable fifo s0 i now, false)
  | some req =>
    if req.dstate ≠ DState.PENDING then (addToAvailable fifo s0 i now, false)
    else
      let s1 := s0.updateRes i (fun r => r.allocate now)
      ({ s1 with loans := s1.loans ++ [i], resolved := s1.resolved ++ [(req.rid, i)] }, true)

/-- Configuration bits of Pool.release. -/
structure ReleaseCfg where
  testOnReturn : Bool
  fifo : Bool
deriving DecidableEq, Repr

/-- `Pool.release` with the validation outcome supplied as an oracle
(`some true` = validator resolved true, `some false` = resolved false,
`none` = validator rejected).  Returns the updated pool together with the
sequence of lifecycle states the released wrapper passes through; errors when
the handle has no active loan. -/
def releaseL (cfg : ReleaseCfg) (s : PoolL) (i : Nat) (now : Nat) (vr : Option Bool) :
    Except Unit (PoolL × List PRState) :=
  if s.loans.contains i then
    match s.getRes i with
    | none => Except.error ()
    | some pr =>
      let s1 := ({ s with loans := s.loans.erase i } : PoolL).updateRes i
        (fun r => r.deallocate now)
      let pr1 := pr.deallocate now
      if cfg.testOnReturn then
        let s2 := s1.updateRes i PooledResource.test
        let pr2 := pr1.test
        match vr with
        | some true =>
          let s3 := addToAvailable cfg.fifo s2 i now
          Except.ok ({ s3 with dispenseRan := true },
            [pr1.state, pr2.state, (pr2.idle now).state])
        | _ =>
          let s3 := destroyRes s2 i
          Except.ok ({ s3 with dispenseRan := true },
            [pr1.state, pr2.state, pr2.invalidate.state])
      else
        let s2 := addToAvailable cfg.fifo s1 i now
        Except.ok ({ s2 with dispenseRan := true },
          [pr1.state, (pr1.idle now).state])
  else Except.error ()

/-- `Pool.clear`, the phase that runs after the pending create operations
have settled: snapshot the available cache, remove each snapshotted item from
it and issue factory.destroy for it, then empty allObjects.

Modelled from the spec: `Deque.remove(value)` is referenced by Pool.clear and
Pool._evict but absent from Deque.ts; per the spec (section 4.F, mid-iteration
removal; section 4.H clear: for each entry currently in available, remove it
and start destruction) it removes that value from the sequence, embedded here
as erasing the first occurrence. -/
def clearStep (acc : PoolL) (j : Nat) : PoolL :=
  { acc with available := acc.available.erase j, destroyed := acc.destroyed ++ [j] }

def clearDestroyAvailable (s : PoolL) : PoolL :=
  let s1 := s.available.foldl clearStep s
  { s1 with allObjects := [] }

/-! ## DoublyLinkedList and its iterator
(src DoublyLinkedList.ts and src/lib/DoublyLinkedListIterator.ts)

Nodes live in an arena indexed by allocation order; `prev`/`next` hold arena
indices.  Removal detaches a node exactly as the source does: neighbours are
relinked and the pointers of the removed node are set to null while the node
object itself stays allocated (the iterator may still hold it). -/

structure DNode (α : Type) where
  prev : Option Nat
  next : Option Nat
  data : α
deriving DecidableEq, Repr

structure DLL (α : Type) where
  nodes : List (DNode α)
  head : Option Nat
  tail : Option Nat
  length : Nat
deriving DecidableEq, Repr

def DLL.empty (α : Type) : DLL α :=
  { nodes := [], head := none, tail := none, length := 0 }

def DLL.get {α : Type} (l : DLL α) (i : Nat) : Option (DNode α) :=
  l.nodes[i]?

/-- `DoublyLinkedList.insertBefore(node, newNode)` with the new node freshly
allocated holding `x` (the arena index of the new node is the next free
index). -/
def DLL.insertBefore {α : Type} (l : DLL α) (ni : Nat) (x : α) : DLL α :=
  match l.get ni with
  | none => l
  | some nd =>
    let id := l.nodes.length
    let ns1 := l.nodes ++ [{ prev := nd.prev, next := some ni, data := x }]
    let withPrev :=
      match nd.prev with
      | none => (ns1, (some id : Option Nat))
      | some p => (listModify ns1 p (fun m => { m with next := some id }), l.head)
    let ns3 := listModify withPrev.1 ni (fun m => { m with prev := some id })
    { nodes := ns3, head := withPrev.2, tail := l.tail, length := l.length + 1 }

/-- `DoublyLinkedList.insertAfter(node, newNode)` with the new node freshly
allocated holding `x`. -/
def DLL.insertAfter {α : Type} (l : DLL α) (ni : Nat) (x : α) : DLL α :=
  match l.get ni with
  | none => l
  | some nd =>
    let id := l.nodes.length
    let ns1 := l.nodes ++ [{ prev := some ni, next := nd.next, data := x }]
    let withNext :=
      match nd.next with
      | none => (ns1, (some id : Option Nat))
      | some q => (listModify ns1 q (fun m => { m with prev := some id }), l.tail)
    let ns3 := listModify withNext.1 ni (fun m => { m with next := some id })
    { nodes := ns3, head := l.head, tail := withNext.2, length := l.length + 1 }

/-- `DoublyLinkedList.insertBeginning(data)`. -/
def DLL.insertBeginning {α : Type} (l : DLL α) (x : α) : DLL α :=
  match l.head with
  | none =>
    let id := l.nodes.length
    { nodes := l.nodes ++ [{ prev := none, next := none, data := x }],
      head := some id, tail := some id, length := l.length + 1 }
  | some h => l.insertBefore h x

/-- `DoublyLinkedList.insertEnd(data)`. -/
def DLL.insertEnd {α : Type} (l : DLL α) (x : α) : DLL α :=
  match l.tail with
  | none => l.insertBeginning x
  | some t => l.insertAfter t x

/-- `DoublyLinkedList.remove(node)`: relink head/tail and neighbours, then
null out the pointers of the removed node and decrement the length. -/
def DLL.removeNode {α : Type} (l : DLL α) (i : Nat) : DLL α :=
  match l.get i with
  | none => l
  | some nd =>
    let head1 := match nd.prev with
      | none => nd.next
      | some _ => l.head
    let tail1 := match nd.next with
      | none => nd.prev
      | some _ => l.tail
    let ns1 := match nd.prev with
      | none => l.nodes
      | some p => listModify l.nodes p (fun m => { m with next := nd.next })
    let ns2 := match nd.next with
      | none => ns1
      | some q => listModify ns1 q (fun m => { m with prev := nd.prev })
    let ns3 := listModify ns2 i (fun m => { m with prev := none, next := none })
    { nodes := ns3, head := head1, tail := tail1, length := l.length - 1 }

/-- The state of a DoublyLinkedListIterator. -/
structure DLLIter where
  reverse : Bool
  started : Bool
  cursor : Option Nat
  done : Bool
deriving DecidableEq, Repr

def DLLIter.fresh (reverse : Bool) : DLLIter :=
  { reverse := reverse, started := false, cursor := none, done := false }

/-- `DoublyLinkedListIterator._advanceCursor`. -/
def advanceCursor {α : Type} (l : DLL α) (it : DLLIter) : DLLIter :=
  if it.started = false then
    { it with started := true, cursor := if it.reverse then l.tail else l.head }
  else
    match it.cursor with
    | none => it
    | some c =>
      { it with cursor :=
          match l.get c with
          | none => none
          | some nd => if it.reverse then nd.prev else nd.next }

/-- `DoublyLinkedListIterator._isCursorDetached` on a cursor value. -/
def isCursorDetached {α : Type} (l : DLL α) (cursor : Option Nat) : Bool :=
  match cursor with
  | none => true
  | some c =>
    match l.get c with
    | none => true
    | some nd =>
      let trulyOrphaned :=
        nd.prev.isNone && nd.next.isNone &&
          !(l.tail == some c) && !(l.head == some c)
      if l.length = 0 then true else trulyOrphaned

/-- `DoublyLinkedListIterator.next`: returns the updated iterator and the
arena index of the yielded node (`none` when the result is done). -/
def iterNext {α : Type} (l : DLL α) (it : DLLIter) : DLLIter × Option Nat :=
  if it.done then (it, none)
  else
    let it1 := advanceCursor l it
    if it1.cursor.isNone || isCursorDetached l it1.cursor then
      ({ it1 with done := true }, none)
    else (it1, it1.cursor)

/-! ## Concrete sample data used to evaluate the definitions -/

/-- Release configuration with testOnReturn off and fifo on (the defaults). -/
def relCfgPlain : ReleaseCfg :=
  { testOnReturn := false, fifo := true }

/-- A wrapper for handle 1, created at time 0 and allocated at time 2. -/
def prA : PooledResource :=
  (mkPooledResource 1 0).allocate 2

/-- A pool holding the single borrowed resource 1. -/
def s0C3 : PoolL :=
  { resources := [(1, prA)], loans := [1], available := [], allObjects := [1],
    queue := [], destroyed := [], resolved := [], dispenseRan := false }

/-- An idle wrapper for handle 9. -/
def prB : PooledResource :=
  mkPooledResource 9 0

/-- A pool with resource 7 available, resource 9 in hand for dispatch, and an
empty waiting queue. -/
def s0C4 : PoolL :=
  { resources := [(9, prB)], loans := [], available := [7], allObjects := [7, 9],
    queue := [], destroyed := [], resolved := [], dispenseRan := false }

/-- The three-element doubly linked list holding 10, 20, 30. -/
def l3 : DLL Nat :=
  (((DLL.empty Nat).insertEnd 10).insertEnd 20).insertEnd 30

/-- A fresh forward iterator. -/
def it0 : DLLIter :=
  DLLIter.fresh false

/-- The iterator after one call to next on l3 (cursor on node 0). -/
def it1 : DLLIter :=
  (iterNext l3 it0).1

/-- The list l3 with node 0, the node the cursor points at, removed. -/
def l3r : DLL Nat :=
  l3.removeNode 0

/-- Sample configuration: max 2, min 1, no waiting-client cap, autostart off,
an eviction interval configured. -/
def cfgW : PoolConfig :=
  { max := 2, min := 1, maxWaitingClients := none, autostart := false,
    testOnBorrow := false, evictionRunIntervalMillis := 5 }

/-- Sample configuration for the queue-full rejection: max 1, a waiting-client
cap of 0. -/
def cfgQF : PoolConfig :=
  { max := 1, min := 0, maxWaitingClients := some 0, autostart := true,
    testOnBorrow := false, evictionRunIntervalMillis := 0 }

/-- A started pool at full capacity under cfgQF. -/
def sQF : PState :=
  { initialPState with allObjects := 1, started := true }

/-- The never-started pool after drain(): reachable from the fresh pool by
the drain step (drain sets the flag unconditionally). -/
def sDrained : PState :=
  { initialPState with draining := true }

/-- The direction of that property that the code actually maintains. -/
def lastIdleInv (r : PooledResource) : Prop :=
  (r.state = PRState.IDLE → r.lastIdleTime ≠ none) ∧
  (r.state = PRState.ALLOCATED → r.lastIdleTime = none)

lemma lastIdleInv_applyOp (r : PooledResource) (op : PROp × Nat) :
    lastIdleInv (r.applyOp op) := by
  obtain ⟨o, now⟩ := op
  cases o <;>
    simp [PooledResource.applyOp, lastIdleInv, PooledResource.allocate,
      PooledResource.deallocate, PooledResource.invalidate, PooledResource.test,
      PooledResource.idle, PooledResource.returning]

lemma lastIdleInv_applyOps (r : PooledResource) (ops : List (PROp × Nat))
    (h : lastIdleInv r) : lastIdleInv (r.applyOps ops) := by
  induction ops generalizing r with
  | nil => exact h
  | cons op rest ih =>
    exact ih (r.applyOp op) (lastIdleInv_applyOp r op)

lemma lastIdleInv_mk (objId now : Nat) : lastIdleInv (mkPooledResource objId now) := by
  simp [lastIdleInv, mkPooledResource]

/-- C6: the claimed equivalence (lastIdleTime is non-null iff the state is
IDLE) fails on the code: the sequence [test] produces a resource in state
VALIDATION whose lastIdleTime is still non-null, because test (like returning
and invalidate) changes only the state field. -/
theorem lastIdleTime_iff_idle_counterexample :
    ¬ (∀ (objId startTime : Nat) (ops : List (PROp × Nat)),
        lastIdleIffIdle ((mkPooledResource objId startTime).applyOps ops)) := by
  intro h
  exact absurd (h 1 0 [(PROp.test, 5)]) (by decide)

/-- C6 (amended): for every PooledResource and every sequence of its
lifecycle operations, state IDLE implies lastIdleTime is non-null, and state
ALLOCATED implies lastIdleTime is null; the converse of the first implication
fails because test, returning and invalidate leave lastIdleTime unchanged. -/
theorem lastIdleTime_state_invariant (objId startTime : Nat) (ops : List (PROp × Nat)) :
    (((mkPooledResource objId startTime).applyOps ops).state = PRState.IDLE →
      ((mkPooledResource objId startTime).applyOps ops).lastIdleTime ≠ none) ∧
    (((mkPooledResource objId startTime).applyOps ops).state = PRState.ALLOCATED →
      ((mkPooledResource objId startTime).applyOps ops).lastIdleTime = none) :=
  lastIdleInv_applyOps _ ops (lastIdleInv_mk objId startTime)

/-- Witness for lastIdleTime_state_invariant at a concrete operation
sequence. -/
theorem lastIdleTime_state_invariant_witness :
    ((mkPooledResource 1 0).applyOps [(PROp.allocate, 2), (PROp.deallocate, 3)]).lastIdleTime ≠ none :=
  (lastIdleTime_state_invariant 1 0 [(PROp.allocate, 2), (PROp.deallocate, 3)]).1 (by decide)

/-- C7: the claimed error condition (a negative or non-integer delay is an
error) fails on the code: on a pending request the delay 5/2 (= 2.5, not an
integer) is accepted, because the code floors the delay first and only
rejects when the floored value is not positive.  (Delay 0, neither negative
nor non-integer, conversely is rejected.) -/
theorem setTimeout_error_condition_counterexample :
    ¬ (∀ (r : ResourceRequest) (delay : JSNumber) (now : Int),
        r.dstate = DState.PENDING →
        ((ResourceRequest.setTimeout r delay now = Except.error ()) ↔
          setTimeoutClaimedError delay)) := by
  intro h
  have h2 := (h { dstate := DState.PENDING, creationTimestamp := 0, timerRef := none }
      { num := 5, den := 2 } 1 rfl).mpr (Or.inr (by decide))
  exact absurd h2 (by decide)

/-- C7 (amended): setTimeout is a no-op when the request is not pending; when
it is pending it errors exactly when Math.floor(delay) is not positive, and
otherwise replaces any prior timer with one armed at effective delay
max(floor(delay) - age, 0), with age the elapsed time since creation. -/
theorem setTimeout_behavior (r : ResourceRequest) (delay : JSNumber) (now : Int) :
    (r.dstate ≠ DState.PENDING → ResourceRequest.setTimeout r delay now = Except.ok r) ∧
    (r.dstate = DState.PENDING → jsMathFloor delay ≤ 0 →
      ResourceRequest.setTimeout r delay now = Except.error ()) ∧
    (r.dstate = DState.PENDING → 0 < jsMathFloor delay →
      ResourceRequest.setTimeout r delay now =
        Except.ok { r with
          timerRef := some (max (jsMathFloor delay - (now - r.creationTimestamp)) 0) }) := by
  refine ⟨?_, ?_, ?_⟩
  · intro h1
    simp [ResourceRequest.setTimeout, h1]
  · intro h1 h2
    simp [ResourceRequest.setTimeout, h1, h2]
  · intro h1 h2
    simp [ResourceRequest.setTimeout, h1, not_le.mpr h2]

/-- Witness for setTimeout_behavior: a pending request created at time 0,
delay 5, current time 2 arms a timer with effective delay 3. -/
theorem setTimeout_behavior_witness :
    ResourceRequest.setTimeout
        { dstate := DState.PENDING, creationTimestamp := 0, timerRef := none }
        { num := 5, den := 1 } 2 =
      Except.ok { dstate := DState.PENDING, creationTimestamp := 0, timerRef := some 3 } :=
  ((setTimeout_behavior { dstate := DState.PENDING, creationTimestamp := 0, timerRef := none }
      { num := 5, den := 1 } 2).2.2 rfl (by decide)).trans (by decide)

lemma listModify_getElem {α : Type} (l : List α) (n : Nat) (f : α → α) (i : Nat) :
    (listModify l n f)[i]? = if i = n then (l[i]?).map f else l[i]? := by
  induction l generalizing n i with
  | nil => simp [listModify]
  | cons b bs ih =>
    cases n with
    | zero =>
      cases i with
      | zero => simp [listModify]
      | succ j => simp [listModify]
    | succ m =>
      cases i with
      | zero => simp [listModify]
      | succ j => simpa [listModify] using ih m j

lemma listModify_length {α : Type} (l : List α) (n : Nat) (f : α → α) :
    (listModify l n f).length = l.length := by
  induction l generalizing n with
  | nil => simp [listModify]
  | cons b bs ih =>
    cases n with
    | zero => simp [listModify]
    | succ m => simpa [listModify] using ih m

/-- C8: the claimed clamping (every priority outside [0, priorityRange) goes
to slot priorityRange - 1) fails on the code: the source first applies the
32-bit `| 0` coercion `(priority && +priority | 0) || 0`, so priority 2^32
(an exact JS double) wraps to 0 and the item lands in slot 0, not in the last
slot. -/
theorem enqueue_wrap_counterexample :
    ¬ (∀ (q : PriorityQueue Nat) (x : Nat) (p : Int) (i : Nat),
        q.slots.length = q.size → 1 ≤ q.size →
        (q.enqueue x (some p)).slots[i]? =
          (if i = claimedSlotIndex q.size p
            then (q.slots[i]?).map (fun slot => slot ++ [x])
            else q.slots[i]?)) := by
  intro h
  have h2 := h (PriorityQueue.make Nat 3) 42 4294967296 0 (by decide) (by decide)
  exact absurd h2 (by decide)

/-- C8 (amended): PriorityQueue.enqueue appends the item at the tail of the
FIFO slot selected by clamping the 32-bit-wrapped priority: after the `| 0`
ToInt32 coercion, values inside [0, priorityRange) select their own slot and
anything else selects slot priorityRange - 1; every other slot is
unchanged. -/
theorem enqueue_clamps_priority {α : Type} (q : PriorityQueue α) (x : α) (p : Int)
    (_hwf : q.slots.length = q.size) (hpos : 1 ≤ q.size) (i : Nat) :
    (q.enqueue x (some p)).slots[i]? =
      if i = claimedSlotIndex q.size (toInt32 p)
        then (q.slots[i]?).map (fun slot => slot ++ [x])
        else q.slots[i]? := by
  have hidx : (if toInt32 p < 0 ∨ (q.size : Int) ≤ toInt32 p then q.size - 1
      else (toInt32 p).toNat) = claimedSlotIndex q.size (toInt32 p) := by
    unfold claimedSlotIndex
    split_ifs with h1 h2 h2 <;> omega
  unfold PriorityQueue.enqueue
  simp only []
  rw [listModify_getElem, hidx]

/-- Witness for enqueue_clamps_priority: a queue of three slots, priority 5
(unchanged by the 32-bit wrap) lands in slot 2. -/
theorem enqueue_clamps_priority_witness :
    ((PriorityQueue.make Nat 3).enqueue 42 (some 5)).slots[2]? = some [42] :=
  (enqueue_clamps_priority (PriorityQueue.make Nat 3) 42 5 (by decide) (by decide) 2).trans
    (by decide)

/-- C9: when the node the cursor points at is removed from the list, the next
call to next() does not advance to the head or the following node: it
terminates the iteration (done = true, no value), even though the list still
has two nodes (head node 1 carrying 20).  The caller must reset() to
continue, which is what Pool._evict does. -/
theorem iterator_removed_cursor_counterexample :
    (iterNext l3r it1).1.done = true ∧ (iterNext l3r it1).2 = none ∧
    l3r.head = some 1 ∧ l3r.length = 2 ∧
    ((l3r.get 1).map (fun nd => nd.data)) = some 20 := by decide

/-- C9 (amended): the cursor is not invalidated by removals elsewhere in the
list: whenever the cursor node's next pointer leads to an attached node j
(removal of other nodes relinks that pointer), next() advances to j; but when
the cursor node itself has been removed (its next pointer nulled), next()
terminates the iteration with done = true instead of advancing past it. -/
theorem iterator_cursor_behavior {α : Type} (l : DLL α) (it : DLLIter) (c : Nat)
    (nd : DNode α) (hst : it.started = true) (hdn : it.done = false)
    (hrev : it.reverse = false) (hcur : it.cursor = some c) (hget : l.get c = some nd) :
    (nd.next = none →
      (iterNext l it).1.done = true ∧ (iterNext l it).2 = none) ∧
    (∀ j ndj, nd.next = some j → l.get j = some ndj →
      isCursorDetached l (some j) = false →
      (iterNext l it).1.cursor = some j ∧ (iterNext l it).1.done = false ∧
      (iterNext l it).2 = some j) := by
  constructor
  · intro hn
    simp [iterNext, advanceCursor, hst, hdn, hrev, hcur, hget, hn, isCursorDetached]
  · intro j ndj hn hgj hdet
    simp [iterNext, advanceCursor, hst, hdn, hrev, hcur, hget, hn, hdet]

/-- Witness for iterator_cursor_behavior: on the intact list l3 with the
cursor on node 0, next() advances to node 1. -/
theorem iterator_cursor_behavior_witness :
    (iterNext l3 it1).1.cursor = some 1 ∧ (iterNext l3 it1).1.done = false ∧
    (iterNext l3 it1).2 = some 1 :=
  (iterator_cursor_behavior l3 it1 0 { prev := none, next := some 1, data := 10 }
      (by decide) (by decide) (by decide) (by decide) (by decide)).2 1
    { prev := some 0, next := some 2, data := 20 } (by decide) (by decide) (by decide)

lemma lookup_storeSet {β : Type} (l : List (Nat × β)) (i : Nat) (f : β → β) :
    (storeSet l i f).lookup i = (l.lookup i).map f := by
  induction l with
  | nil => simp [storeSet]
  | cons p rest ih =>
    obtain ⟨j, r⟩ := p
    by_cases hj : j = i
    · subst hj
      simp [storeSet, List.lookup]
    · have hij : (i == j) = false := by
        simp [Ne.symm hj]
      simp [storeSet, hj, List.lookup, hij, ih]

/-- C3: the claim that a successful release transitions the Pooled Resource
from ALLOCATED to RETURNING fails on the code: release calls deallocate,
which moves the wrapper straight to IDLE; the returning method is never
invoked, so the wrapper never passes through RETURNING. -/
theorem release_returning_counterexample :
    ¬ (∀ (cfg : ReleaseCfg) (s : PoolL) (i now : Nat) (vr : Option Bool)
        (res : PoolL × List PRState),
        releaseL cfg s i now vr = Except.ok res → PRState.RETURNING ∈ res.2) := by
  intro h
  have h2 := h relCfgPlain s0C3 1 5 none _ rfl
  exact absurd h2 (by decide)

/-- C3 (amended): a successful release of a handle with an active loan
transitions its Pooled Resource from ALLOCATED straight to IDLE via
deallocate (RETURNING is never entered); if testOnReturn is configured it
then enters VALIDATION and is destroyed when the validator returns false or
fails, and otherwise it re-enters the available cache (push at tail when fifo
is true, unshift at head when fifo is false) and dispensing is triggered. -/
theorem release_behavior (cfg : ReleaseCfg) (s : PoolL) (i now : Nat) (vr : Option Bool)
    (pr : PooledResource) (hl : s.loans.contains i = true) (hr : s.getRes i = some pr) :
    ∃ s2 tr, releaseL cfg s i now vr = Except.ok (s2, tr) ∧
      tr.head? = some PRState.IDLE ∧
      PRState.RETURNING ∉ tr ∧
      s2.loans = s.loans.erase i ∧
      s2.dispenseRan = true ∧
      (cfg.testOnReturn = false →
        s2.available = (if cfg.fifo then s.available ++ [i] else i :: s.available) ∧
        s2.getRes i = some ((pr.deallocate now).idle now) ∧
        s2.destroyed = s.destroyed) ∧
      (cfg.testOnReturn = true → PRState.VALIDATION ∈ tr ∧
        (vr = some true →
          s2.available = (if cfg.fifo then s.available ++ [i] else i :: s.available) ∧
          s2.getRes i = some (((pr.deallocate now).test).idle now) ∧
          s2.destroyed = s.destroyed) ∧
        (vr ≠ some true →
          s2.destroyed = s.destroyed ++ [i] ∧
          s2.allObjects = s.allObjects.erase i ∧
          s2.getRes i = some (((pr.deallocate now).test).invalidate) ∧
          s2.available = s.available)) := by
  have hr2 : s.resources.lookup i = some pr := hr
  unfold releaseL
  simp only [hl, if_true, hr]
  cases htr : cfg.testOnReturn with
  | false =>
    refine ⟨_, _, rfl, ?_, ?_, ?_, ?_, ?_, ?_⟩ <;>
      simp [addToAvailable, PoolL.updateRes, PoolL.getRes, lookup_storeSet, hr2,
        PooledResource.deallocate, PooledResource.idle]
  | true =>
    cases vr with
    | none =>
      refine ⟨_, _, rfl, ?_, ?_, ?_, ?_, ?_, ?_⟩ <;>
        simp [destroyRes, PoolL.updateRes, PoolL.getRes, lookup_storeSet, hr2,
          PooledResource.deallocate, PooledResource.test, PooledResource.invalidate]
    | some b =>
      cases b with
      | false =>
        refine ⟨_, _, rfl, ?_, ?_, ?_, ?_, ?_, ?_⟩ <;>
          simp [destroyRes, PoolL.updateRes, PoolL.getRes, lookup_storeSet, hr2,
            PooledResource.deallocate, PooledResource.test, PooledResource.invalidate]
      | true =>
        refine ⟨_, _, rfl, ?_, ?_, ?_, ?_, ?_, ?_⟩ <;>
          simp [addToAvailable, PoolL.updateRes, PoolL.getRes, lookup_storeSet, hr2,
            PooledResource.deallocate, PooledResource.test, PooledResource.idle]

/-- Witness for release_behavior at the concrete pool s0C3. -/
theorem release_behavior_witness :
    ∃ s2 tr, releaseL relCfgPlain s0C3 1 5 none = Except.ok (s2, tr) ∧
      tr.head? = some PRState.IDLE := by
  obtain ⟨s2, tr, h1, h2, -⟩ :=
    release_behavior relCfgPlain s0C3 1 5 none prA (by decide) (by decide)
  exact ⟨s2, tr, h1, h2⟩

/-- C4: the claim that a pooled resource whose dispatch finds no pending
waiter is pushed back at the head of the available cache (unshift) fails on
the code: the put-back goes through _addPooledResourceToAvailableObjects,
which pushes at the tail when fifo is configured (the default).  With
available = [7] and an empty queue, dispatching resource 9 yields [7, 9], not
head 9. -/
theorem dispatch_putback_unshift_counterexample :
    ¬ (∀ (fifo : Bool) (s : PoolL) (i now : Nat),
        (dequeueSlots s.queue).1 = none →
        (dispatchToNextWaitingClient fifo s i now).1.available.head? = some i) := by
  intro h
  have h2 := h true s0C4 9 5 (by decide)
  exact absurd h2 (by decide)

/-- C4 (amended): when dispatchToNextWaiter runs with a pooled resource and
the dequeued request is absent or no longer pending, the pooled resource
re-enters the available cache through the fifo-dependent put-back (tail push
when fifo, head unshift when not), its wrapper is set idle and dispatch
reports false; otherwise a loan is recorded under the resource handle, the
wrapper transitions to ALLOCATED and the request is resolved with the
handle. -/
theorem dispatch_behavior (fifo : Bool) (s : PoolL) (i now : Nat) (pr : PooledResource)
    (hr : s.getRes i = some pr) :
    (((dequeueSlots s.queue).1 = none ∨
        (∃ req, (dequeueSlots s.queue).1 = some req ∧ req.dstate ≠ DState.PENDING)) →
      (dispatchToNextWaitingClient fifo s i now).2 = false ∧
      (dispatchToNextWaitingClient fifo s i now).1.available =
        (if fifo then s.available ++ [i] else i :: s.available) ∧
      (dispatchToNextWaitingClient fifo s i now).1.getRes i = some (pr.idle now) ∧
      (dispatchToNextWaitingClient fifo s i now).1.loans = s.loans) ∧
    (∀ req, (dequeueSlots s.queue).1 = some req → req.dstate = DState.PENDING →
      (dispatchToNextWaitingClient fifo s i now).2 = true ∧
      (dispatchToNextWaitingClient fifo s i now).1.loans = s.loans ++ [i] ∧
      (dispatchToNextWaitingClient fifo s i now).1.getRes i = some (pr.allocate now) ∧
      (dispatchToNextWaitingClient fifo s i now).1.resolved = s.resolved ++ [(req.rid, i)] ∧
      (dispatchToNextWaitingClient fifo s i now).1.available = s.available) := by
  have hr2 : s.resources.lookup i = some pr := hr
  constructor
  · intro hcase
    rcases hcase with hnone | ⟨req, hreq, hnp⟩
    · simp [dispatchToNextWaitingClient, hnone, addToAvailable, PoolL.updateRes,
        PoolL.getRes, lookup_storeSet, hr2]
    · simp [dispatchToNextWaitingClient, hreq, hnp, addToAvailable, PoolL.updateRes,
        PoolL.getRes, lookup_storeSet, hr2]
  · intro req hreq hp
    simp [dispatchToNextWaitingClient, hreq, hp, PoolL.updateRes,
      PoolL.getRes, lookup_storeSet, hr2]

/-- Witness for dispatch_behavior at the concrete pool s0C4. -/
theorem dispatch_behavior_witness :
    (dispatchToNextWaitingClient true s0C4 9 5).2 = false ∧
    (dispatchToNextWaitingClient true s0C4 9 5).1.available = [7, 9] := by
  have h := (dispatch_behavior true s0C4 9 5 prB (by decide)).1 (Or.inl (by decide))
  exact ⟨h.1, h.2.1.trans (by decide)⟩

lemma clearStep_fold (l : List Nat) (s : PoolL) (h : s.available = l) :
    (l.foldl clearStep s).available = [] ∧
    (l.foldl clearStep s).destroyed = s.destroyed ++ l := by
  induction l generalizing s with
  | nil => exact ⟨h, by simp⟩
  | cons a t ih =>
    have hstep : (clearStep s a).available = t := by
      simp [clearStep, h]
    have := ih (clearStep s a) hstep
    refine ⟨this.1, ?_⟩
    have hd : (clearStep s a).destroyed = s.destroyed ++ [a] := rfl
    simpa [hd] using this.2

/-- C5: the phase of clear() that runs after the pending create operations
settled removes every snapshotted item from the available cache (via the
spec-modelled Deque.remove) and issues factory.destroy for each of them, and
empties allResources; afterwards the available count is 0 (absent a
subsequent ensureMinimum re-creation, which is a separate later call). -/
theorem clear_empties_available (s : PoolL) :
    (clearDestroyAvailable s).available = [] ∧
    (clearDestroyAvailable s).destroyed = s.destroyed ++ s.available ∧
    (clearDestroyAvailable s).allObjects = [] := by
  unfold clearDestroyAvailable
  have h := clearStep_fold s.available s rfl
  exact ⟨h.1, h.2, rfl⟩


lemma dispatchPooledOne_counts (s : PState) (b : Bool) :
    (dispatchPooledOne s b).allObjects = s.allObjects ∧
    (dispatchPooledOne s b).creating = s.creating := by
  unfold dispatchPooledOne
  split_ifs <;> simp

lemma dispatchResource_counts (s : PState) (b : Bool) :
    (dispatchResource s b).allObjects = s.allObjects ∧
    (dispatchResource s b).creating = s.creating := by
  unfold dispatchResource
  have h := dispatchPooledOne_counts { s with availableLen := s.availableLen - 1 } b
  exact h

lemma dispatchLoop_counts (n : Nat) (oracle : List Bool) (s : PState) :
    (dispatchLoop n oracle s).allObjects = s.allObjects ∧
    (dispatchLoop n oracle s).creating = s.creating := by
  induction n generalizing oracle s with
  | zero => exact ⟨rfl, rfl⟩
  | succ m ih =>
    have h1 := dispatchResource_counts s (oracle.headD true)
    have h2 := ih oracle.tail (dispatchResource s (oracle.headD true))
    exact ⟨h2.1.trans h1.1, h2.2.trans h1.2⟩

lemma ensureMinimum_inv (cfg : PoolConfig) (s : PState) (hmin : cfg.min ≤ cfg.max)
    (h : poolInv cfg s) : poolInv cfg (ensureMinimum cfg s) := by
  unfold ensureMinimum poolInv PState.count at *
  split_ifs with hg
  · exact h
  · dsimp only
    omega

lemma dispense_creating_inv (cfg : PoolConfig) (s : PState) (h : poolInv cfg s) :
    poolInv cfg { s with creating := s.creating + dispenseCreateCount cfg s } := by
  unfold poolInv dispenseCreateCount spareResourceCapacity potentiallyAllocable at *
  dsimp only
  omega

lemma dispense_inv (cfg : PoolConfig) (oracle : List Bool) (s : PState)
    (h : poolInv cfg s) : poolInv cfg (dispense cfg oracle s) := by
  unfold dispense
  split_ifs with hw htb
  · exact h
  · have h1 := dispense_creating_inv cfg s h
    unfold testOnBorrowMoves poolInv at *
    dsimp only at *
    omega
  · have h1 := dispense_creating_inv cfg s h
    have h2 := dispatchLoop_counts
      (min ({ s with creating := s.creating + dispenseCreateCount cfg s }).availableLen s.waitersLen)
      oracle { s with creating := s.creating + dispenseCreateCount cfg s }
    unfold poolInv at *
    rw [h2.1, h2.2]
    exact h1

lemma destroyPooled_inv (cfg : PoolConfig) (s : PState) (hmin : cfg.min ≤ cfg.max)
    (h : poolInv cfg s) : poolInv cfg (destroyPooled cfg s) := by
  unfold destroyPooled
  apply ensureMinimum_inv cfg _ hmin
  unfold poolInv at *
  dsimp only
  omega

lemma scheduleEvictorRun_counts (cfg : PoolConfig) (s : PState) :
    (scheduleEvictorRun cfg s).allObjects = s.allObjects ∧
    (scheduleEvictorRun cfg s).creating = s.creating := by
  unfold scheduleEvictorRun
  split_ifs <;> simp

lemma start_inv (cfg : PoolConfig) (s : PState) (hmin : cfg.min ≤ cfg.max)
    (h : poolInv cfg s) : poolInv cfg (start cfg s) := by
  unfold start
  split_ifs with hg
  · exact h
  · apply ensureMinimum_inv cfg _ hmin
    have h2 := scheduleEvictorRun_counts cfg { s with started := true }
    unfold poolInv at *
    rw [h2.1, h2.2]
    exact h

lemma autoStart_inv (cfg : PoolConfig) (s : PState) (hmin : cfg.min ≤ cfg.max)
    (h : poolInv cfg s) : poolInv cfg (autoStart cfg s) := by
  unfold autoStart
  split_ifs with hg
  · exact start_inv cfg s hmin h
  · exact h

lemma acquireChecks_inv (cfg : PoolConfig) (oracle : List Bool) (s : PState)
    (_hmin : cfg.min ≤ cfg.max) (h : poolInv cfg s) :
    poolInv cfg (acquireChecks cfg oracle s).2 := by
  unfold acquireChecks
  split_ifs with h1 h2
  · exact h
  · exact h
  · apply dispense_inv
    unfold poolInv at *
    dsimp only
    exact h

lemma acquire_inv (cfg : PoolConfig) (oracle : List Bool) (s : PState)
    (hmin : cfg.min ≤ cfg.max) (h : poolInv cfg s) :
    poolInv cfg (acquire cfg oracle s).2 := by
  unfold acquire
  exact acquireChecks_inv cfg oracle (autoStart cfg s) hmin (autoStart_inv cfg s hmin h)

lemma poolInv_step (cfg : PoolConfig) (hmin : cfg.min ≤ cfg.max) {s t : PState}
    (hstep : PoolStep cfg s t) (h : poolInv cfg s) : poolInv cfg t := by
  cases hstep with
  | startCall => exact start_inv cfg s hmin h
  | acquireCall oracle => exact acquire_inv cfg oracle s hmin h
  | createSettleOk oracle hc =>
    apply dispense_inv
    unfold poolInv at *
    dsimp only
    omega
  | createSettleFail oracle hc =>
    apply dispense_inv
    unfold poolInv at *
    dsimp only
    omega
  | testOnBorrowSettleValid pending hc =>
    have h2 := dispatchPooledOne_counts { s with testOnBorrowLen := s.testOnBorrowLen - 1 } pending
    unfold poolInv at *
    rw [h2.1, h2.2]
    exact h
  | testOnBorrowSettleInvalid oracle hc =>
    apply dispense_inv
    apply destroyPooled_inv cfg _ hmin
    unfold poolInv at *
    dsimp only
    exact h
  | releaseReturn oracle hc =>
    apply dispense_inv
    unfold poolInv at *
    dsimp only
    exact h
  | releaseTestInvalid oracle hc =>
    apply dispense_inv
    apply destroyPooled_inv cfg _ hmin
    unfold poolInv at *
    dsimp only
    exact h
  | destroyCall oracle hc =>
    apply dispense_inv
    apply destroyPooled_inv cfg _ hmin
    unfold poolInv at *
    dsimp only
    exact h
  | evictOne hc =>
    apply destroyPooled_inv cfg _ hmin
    unfold poolInv at *
    dsimp only
    exact h
  | timeoutRemoveWaiter hc =>
    unfold poolInv at *
    dsimp only
    exact h
  | drainCall =>
    unfold poolInv at *
    dsimp only
    exact h
  | clearCall =>
    apply ensureMinimum_inv cfg _ hmin
    unfold poolInv at *
    dsimp only
    omega

/-- C1: for every sequence of pool operations (public calls and asynchronous
factory settlements), the count allObjects + creating never exceeds the
configured max, provided min is clamped to at most max (as PoolOptions
guarantees): dispensing creates at most min(spareResourceCapacity, shortfall)
resources and ensureMinimum creates at most min - (allObjects + creating). -/
theorem pool_capacity_invariant (cfg : PoolConfig) (hmin : cfg.min ≤ cfg.max)
    {s t : PState} (hsteps : PoolSteps cfg s t) (hinv : poolInv cfg s) :
    poolInv cfg t := by
  induction hsteps with
  | refl => exact hinv
  | tail h1 h2 ih => exact poolInv_step cfg hmin h2 ih

/-- Witness for pool_capacity_invariant: under cfgW (max 2, min 1), the
two-step run start then acquire keeps the count within max. -/
theorem pool_capacity_invariant_witness :
    poolInv cfgW (acquire cfgW [] (start cfgW initialPState)).2 :=
  pool_capacity_invariant cfgW (by decide)
    (Relation.ReflTransGen.tail
      (Relation.ReflTransGen.single (PoolStep.startCall initialPState))
      (PoolStep.acquireCall (start cfgW initialPState) []))
    (by decide)

/-- Resolution of the PoolOptions min and max always satisfies the clamping
hypothesis of pool_capacity_invariant. -/
theorem resolveMin_le_resolveMax (optsMin optsMax : Option Int) :
    resolveMin optsMin (resolveMax optsMax) ≤ resolveMax optsMax := by
  unfold resolveMin resolveMax
  cases optsMin <;> cases optsMax <;> dsimp only <;> omega


/-- C2: acquire rejects immediately when the pool is draining; it rejects
with the queue-full error exactly when (after the implicit start)
spareResourceCapacity < 1 and the available cache is empty and
maxWaitingClients is configured with at least that many waiters queued; in
every other case it enqueues a new request (waiter count + 1) and triggers
dispensing. -/
theorem acquire_outcome_characterization (cfg : PoolConfig) (oracle : List Bool) (s : PState) :
    ((acquire cfg oracle s).1 = AcquireOutcome.drainingReject ↔
      (autoStart cfg s).draining = true) ∧
    ((acquire cfg oracle s).1 = AcquireOutcome.queueFull ↔
      ((autoStart cfg s).draining = false ∧
        spareResourceCapacity cfg (autoStart cfg s) < 1 ∧
        (autoStart cfg s).availableLen < 1 ∧
        waitingClientsCapped cfg (autoStart cfg s))) ∧
    (((autoStart cfg s).draining = false ∧
        ¬(spareResourceCapacity cfg (autoStart cfg s) < 1 ∧
          (autoStart cfg s).availableLen < 1 ∧
          waitingClientsCapped cfg (autoStart cfg s))) →
      acquire cfg oracle s =
        (AcquireOutcome.enqueued,
          dispense cfg oracle
            { autoStart cfg s with waitersLen := (autoStart cfg s).waitersLen + 1 })) := by
  unfold acquire acquireChecks
  by_cases hd : (autoStart cfg s).draining = true
  · rw [if_pos hd]
    refine ⟨⟨fun _ => hd, fun _ => rfl⟩, ⟨?_, ?_⟩, ?_⟩
    · intro hx
      exact AcquireOutcome.noConfusion hx
    · intro hx
      rw [hx.1] at hd
      exact absurd hd (by decide)
    · intro hx
      rw [hx.1] at hd
      exact absurd hd (by decide)
  · have hd2 : (autoStart cfg s).draining = false := by
      cases hb : (autoStart cfg s).draining
      · rfl
      · exact absurd hb hd
    rw [if_neg hd]
    by_cases hq : spareResourceCapacity cfg (autoStart cfg s) < 1 ∧
        (autoStart cfg s).availableLen < 1 ∧ waitingClientsCapped cfg (autoStart cfg s)
    · rw [if_pos hq]
      refine ⟨⟨?_, ?_⟩, ⟨fun _ => ⟨hd2, hq⟩, fun _ => rfl⟩, ?_⟩
      · intro hx
        exact AcquireOutcome.noConfusion hx
      · intro hdr
        exact absurd hdr hd
      · intro hx
        exact absurd hq hx.2
    · rw [if_neg hq]
      refine ⟨⟨?_, ?_⟩, ⟨?_, ?_⟩, fun _ => rfl⟩
      · intro hx
        exact AcquireOutcome.noConfusion hx
      · intro hdr
        exact absurd hdr hd
      · intro hx
        exact AcquireOutcome.noConfusion hx
      · intro hx
        exact absurd hx.2 hq

/-- Witness for acquire_outcome_characterization: under cfgQF (max 1,
maxWaitingClients 0) on a full started pool, acquire reports queue-full. -/
theorem acquire_outcome_characterization_witness :
    (acquire cfgQF [] sQF).1 = AcquireOutcome.queueFull :=
  (acquire_outcome_characterization cfgQF [] sQF).2.1.mpr
    ⟨by decide, by decide, by decide, by decide⟩

/-- C10: the claim fails on the reachable drain-before-start pool (construct
with autostart off, call drain, then acquire): acquire does invoke start(),
but start() no-ops on its own draining guard, so the started flag is never
set and no ensureMinimum creations happen (creating stays 0 although min is
1 under cfgW); acquire then rejects with the draining error.  The first
conjunct shows sDrained is reached from the fresh pool by the drain step. -/
theorem acquire_autostart_draining_counterexample :
    PoolStep cfgW initialPState sDrained ∧
    (autoStart cfgW sDrained).started = false ∧
    (autoStart cfgW sDrained).creating = 0 ∧
    (autoStart cfgW sDrained).scheduledEviction = false ∧
    (acquire cfgW [] sDrained).1 = AcquireOutcome.drainingReject :=
  ⟨PoolStep.drainCall initialPState, by decide, by decide, by decide, by decide⟩

/-- C10 (amended): acquire on a pool that has not been started and whose
autostart option is false always routes through start() before the draining
and capacity checks, which are evaluated on the post-start state; when the
pool is not draining, start() sets the started flag, schedules the evictor
when an eviction interval is configured and runs ensureMinimum, while on a
draining pool start() no-ops on its own draining guard (the started flag
stays unset) and acquire rejects with the draining error. -/
theorem acquire_autostarts (cfg : PoolConfig) (oracle : List Bool) (s : PState)
    (h1 : s.started = false) (h2 : cfg.autostart = false)
    (h4 : s.scheduledEviction = false) :
    (s.draining = false →
      (autoStart cfg s).started = true ∧
      (autoStart cfg s).scheduledEviction = decide (0 < cfg.evictionRunIntervalMillis) ∧
      (autoStart cfg s).creating = s.creating + (cfg.min - (s.count : Int)).toNat) ∧
    (s.draining = true →
      autoStart cfg s = s ∧
      (acquire cfg oracle s).1 = AcquireOutcome.drainingReject) ∧
    acquire cfg oracle s = acquireChecks cfg oracle (autoStart cfg s) := by
  refine ⟨?_, ?_, rfl⟩
  · intro h3
    refine ⟨?_, ?_, ?_⟩ <;>
      · unfold autoStart start scheduleEvictorRun ensureMinimum PState.count
        by_cases he : 0 < cfg.evictionRunIntervalMillis <;>
          simp [h1, h2, h3, h4, he]
  · intro hd
    have ha : autoStart cfg s = s := by
      unfold autoStart start
      simp [h1, h2, hd]
    refine ⟨ha, ?_⟩
    unfold acquire acquireChecks
    rw [ha]
    simp [hd]

/-- Witness for acquire_autostarts: under cfgW the never-started,
non-draining pool is started by acquire and the evictor is scheduled. -/
theorem acquire_autostarts_witness :
    (autoStart cfgW initialPState).started = true ∧
    (autoStart cfgW initialPState).scheduledEviction =
      decide (0 < cfgW.evictionRunIntervalMillis) := by
  have h := (acquire_autostarts cfgW [] initialPState rfl rfl rfl).1 rfl
  exact ⟨h.1, h.2.1⟩


end NodePool
